import Mathlib

/-
Shallow embedding of the Breakout Room Lifecycle and Duration Coordination
subsystem, translated from src/internal/models/breakout_room.go and
src/internal/models/scheduler.go.

External collaborators (the redis client transport, the JSON codec, the room
service, the auth token service, the logger) are modelled as oracle functions
collected in an Env record.  The redis store itself is modelled as an
association list of hashes; the functions return, besides their Go result,
the successor store and the ordered list of observable effects (publishes,
directory calls, store writes, log lines).
-/

namespace PlugNmeet

/-! Data model, from breakout_room.go lines 33-51 and the metadata fields this
subsystem reads and writes. -/

structure BreakoutRoomUser where
  Id : String
  Name : String
deriving DecidableEq

structure BreakoutRoom where
  Id : String
  Title : String
  Duration : Int
  Users : List BreakoutRoomUser
deriving DecidableEq

structure CreateBreakoutRoomsReq where
  RoomId : String
  RequestedUserId : String
  Duration : Int
  WelcomeMsg : String
  Rooms : List BreakoutRoom
deriving DecidableEq

structure BreakoutRoomFeatures where
  IsAllow : Bool
  IsActive : Bool
deriving DecidableEq

structure WaitingRoomFeatures where
  IsActive : Bool
deriving DecidableEq

structure RoomFeatures where
  RoomDuration : Int
  AllowRecording : Bool
  AllowRTMP : Bool
  BreakoutRoomFeatures : BreakoutRoomFeatures
  WaitingRoomFeatures : WaitingRoomFeatures
deriving DecidableEq

structure RoomMetadata where
  RoomTitle : String
  WelcomeMessage : String
  IsBreakoutRoom : Bool
  Features : RoomFeatures
deriving DecidableEq

structure RoomCreateReq where
  RoomId : String
  RoomMetadata : RoomMetadata
deriving DecidableEq

-- result of RoomService.LoadRoomInfoFromRedis: only the Metadata field is read
structure RoomInfo where
  Metadata : String
deriving DecidableEq

-- result of RoomService.LoadParticipantInfoFromRedis: Name and Metadata are read
structure ParticipantInfo where
  Name : String
  Metadata : String
deriving DecidableEq

-- UserMetadata: only the IsAdmin field is read by this subsystem
structure UserMetadata where
  IsAdmin : Bool
deriving DecidableEq

structure UserInfo where
  UserId : String
  Name : String
  IsAdmin : Bool
  UserMetadata : UserMetadata
deriving DecidableEq

structure GenTokenReq where
  RoomId : String
  UserInfo : UserInfo
deriving DecidableEq

-- scheduler.go lines 46-50; the Go field Type is named typ (Type is a Lean keyword)
structure RedisRoomDurationCheckerReq where
  typ : String
  room_id : String
  duration : Int
deriving DecidableEq

structure ReqFrom where
  UserId : String
deriving DecidableEq

structure DataMessageBody where
  typ : String
  From : ReqFrom
  Msg : String
deriving DecidableEq

structure DataMessageRes where
  typ : String
  RoomId : String
  To : String
  Body : DataMessageBody
deriving DecidableEq

structure WebsocketRedisMsg where
  typ : String
  Payload : DataMessageRes
  RoomId : String
  IsAdmin : Bool
deriving DecidableEq

structure JoinBreakoutRoomReq where
  RoomId : String
  BreakoutRoomId : String
  UserId : String
deriving DecidableEq

structure IncreaseBreakoutRoomDurationReq where
  RoomId : String
  BreakoutRoomId : String
  Duration : Int
deriving DecidableEq

structure EndBreakoutRoomReq where
  RoomId : String
  BreakoutRoomId : String
deriving DecidableEq

-- entry of the per-process room-with-duration tracking map (read by scheduler.go
-- lines 75-89; the map itself lives in the config package)
structure RoomWithDuration where
  StartedAt : Int
  Duration : Int
deriving DecidableEq

/-! Redis store model: hashes are an association list keyed by hash name, each
hash an association list of field to value. -/

def lookupA {α : Type} : List (String × α) → String → Option α
  | [], _ => none
  | p :: rest, k => if p.1 = k then some p.2 else lookupA rest k

def setA {α : Type} : List (String × α) → String → α → List (String × α)
  | [], k, v => [(k, v)]
  | p :: rest, k, v => if p.1 = k then (k, v) :: rest else p :: setA rest k v

def delA {α : Type} : List (String × α) → String → List (String × α)
  | [], _ => []
  | p :: rest, k => if p.1 = k then delA rest k else p :: delA rest k

structure Store where
  hashes : List (String × List (String × String))
deriving DecidableEq

-- HGet: a missing key or field yields the redis.Nil error, modelled as none
def Store.hget (s : Store) (key field : String) : Option String :=
  match lookupA s.hashes key with
  | none => none
  | some h => lookupA h field

def Store.hset (s : Store) (key field value : String) : Store :=
  { hashes := setA s.hashes key (setA ((lookupA s.hashes key).getD []) field value) }

def Store.hdel (s : Store) (key field : String) : Store :=
  match lookupA s.hashes key with
  | none => s
  | some h => { hashes := setA s.hashes key (delA h field) }

def Store.del (s : Store) (key : String) : Store :=
  { hashes := delA s.hashes key }

/-- A Go map value as returned by the go-redis v8 HGetAll command.  The client
allocates the result map with make on every successful reply, so on success the
map is never nil: a missing key yields a non-nil empty map. -/
structure GoStrMap where
  isNil : Bool
  entries : List (String × String)
deriving DecidableEq

def Store.hgetAll (s : Store) (key : String) : GoStrMap :=
  { isNil := false, entries := (lookupA s.hashes key).getD [] }

/-! Observable effects, in program order. -/

inductive Effect where
  | createRoomCall (req : RoomCreateReq)
  | logError (msg : String)
  | hsetEff (key field value : String)
  | hdelEff (key field : String)
  | delEff (key : String)
  | publishDurationEff (channel : String) (ev : RedisRoomDurationCheckerReq) (payload : String)
  | publishWebsocket (channel : String) (payload : String) (delivered : Bool)
  | endRoomCall (roomId : String)
  | updateRoomMetaCall (roomId : String) (metadata : String)
  | genTokenCall (req : GenTokenReq)
deriving DecidableEq

/-! Environment of external collaborators. -/

structure Env where
  loadRoomInfo : String → Option RoomInfo
  loadParticipantInfo : String → String → Option ParticipantInfo
  parseRoomMetadata : String → Option RoomMetadata
  parseUserMetadata : String → Option UserMetadata
  parseBreakoutRoom : String → Option BreakoutRoom
  serializeRoomMetadata : RoomMetadata → Option String
  serializeBreakoutRoom : BreakoutRoom → Option String
  serializeDurationReq : RedisRoomDurationCheckerReq → Option String
  serializeWsMsg : WebsocketRedisMsg → Option String
  createRoom : RoomCreateReq → Bool × String
  updateRoomMetadata : String → String → Bool
  endRoom : String → Bool
  hsetExecOk : String → String → String → Bool
  genToken : GenTokenReq → Option String
  publishOk : String → String → Bool

-- breakout_room.go line 13
def breakoutRoomKey : String := "pnm:breakoutRoom:"

/-! broadcastNotification, breakout_room.go lines 287-317.  The redis Publish
command result is never inspected by the source; the publish outcome oracle is
recorded in the effect only. -/

def buildDataMessage (roomId fromUserId toUserId broadcastMsg typeMsg mType : String) :
    DataMessageRes :=
  let payload : DataMessageRes :=
    { typ := typeMsg, RoomId := roomId, To := "",
      Body := { typ := mType, From := { UserId := fromUserId }, Msg := broadcastMsg } }
  if toUserId = "" then payload else { payload with To := toUserId }

def buildWsMsg (roomId fromUserId toUserId broadcastMsg typeMsg mType : String)
    (isAdmin : Bool) : WebsocketRedisMsg :=
  { typ := "sendMsg",
    Payload := buildDataMessage roomId fromUserId toUserId broadcastMsg typeMsg mType,
    RoomId := roomId, IsAdmin := isAdmin }

def broadcastNotification (ser : WebsocketRedisMsg → Option String)
    (publishOutcome : String → String → Bool)
    (roomId fromUserId toUserId broadcastMsg typeMsg mType : String) (isAdmin : Bool) :
    Except String Unit × List Effect :=
  let msg := buildWsMsg roomId fromUserId toUserId broadcastMsg typeMsg mType isAdmin
  match ser msg with
  | none => (Except.error "json marshal failed", [])
  | some marshal =>
    (Except.ok (),
     [Effect.publishWebsocket "plug-n-meet-websocket" marshal
        (publishOutcome "plug-n-meet-websocket" marshal)])

/-! fetchBreakoutRoom, breakout_room.go lines 319-336. -/

def fetchBreakoutRoom (env : Env) (store : Store) (roomId breakoutRoomId : String) :
    Except String BreakoutRoom :=
  match Store.hget store (breakoutRoomKey ++ roomId) breakoutRoomId with
  | none => Except.error "redis: nil"
  | some result =>
    if result = "" then Except.error "not found"
    else
      match env.parseBreakoutRoom result with
      | none => Except.error "json unmarshal failed"
      | some room => Except.ok room

/-! fetchBreakoutRooms, breakout_room.go lines 338-360.  The source tests
(rooms != nil) and returns the error when the map is non-nil; since a
successful HGetAll always yields a non-nil map, the branch below the test is
unreachable.  The loop is still translated faithfully. -/

def collectBreakoutRooms (env : Env) : List (String × String) → List BreakoutRoom
  | [] => []
  | (i, rs) :: rest =>
    match env.parseBreakoutRoom rs with
    | none => collectBreakoutRooms env rest
    | some room => { room with Id := i } :: collectBreakoutRooms env rest

def fetchBreakoutRooms (env : Env) (store : Store) (roomId : String) :
    Except String (List BreakoutRoom) :=
  let rooms := Store.hgetAll store (breakoutRoomKey ++ roomId)
  if rooms.isNil = false then Except.error "no breakout room found"
  else Except.ok (collectBreakoutRooms env rooms.entries)

/-! GetBreakoutRooms, breakout_room.go lines 182-189. -/

def getBreakoutRooms (env : Env) (store : Store) (roomId : String) :
    Except String (List BreakoutRoom) :=
  fetchBreakoutRooms env store roomId

/-! CreateBreakoutRooms, breakout_room.go lines 53-132. -/

-- lines 63-73: template metadata derived from the parent metadata
def deriveTemplate (meta0 : RoomMetadata) (r : CreateBreakoutRoomsReq) : RoomMetadata :=
  { meta0 with
    IsBreakoutRoom := true,
    WelcomeMessage := r.WelcomeMsg,
    Features := { meta0.Features with
      RoomDuration := r.Duration,
      AllowRecording := false,
      AllowRTMP := false,
      BreakoutRoomFeatures := { meta0.Features.BreakoutRoomFeatures with IsAllow := false },
      WaitingRoomFeatures := { meta0.Features.WaitingRoomFeatures with IsActive := false } } }

-- line 120: origMeta.Features.BreakoutRoomFeatures.IsActive = true
def setBreakoutActive (m : RoomMetadata) : RoomMetadata :=
  { m with Features := { m.Features with
      BreakoutRoomFeatures := { m.Features.BreakoutRoomFeatures with IsActive := true } } }

-- lines 106-112: invitation fan-out; a failed notification is logged and skipped
def notifyUsers (env : Env) (mainRoomId requestedUserId bRoomId : String) :
    List BreakoutRoomUser → List Effect
  | [] => []
  | u :: rest =>
    let res := broadcastNotification env.serializeWsMsg env.publishOk mainRoomId
      requestedUserId u.Id bRoomId "SYSTEM" "JOIN_BREAKOUT_ROOM" false
    (match res.1 with
     | Except.error e => res.2 ++ [Effect.logError e]
     | Except.ok _ => res.2) ++ notifyUsers env mainRoomId requestedUserId bRoomId rest

-- lines 75-113: body of the per-room loop
def processOneRoom (env : Env) (store : Store) (meta : RoomMetadata)
    (r : CreateBreakoutRoomsReq) (room : BreakoutRoom) : Store × List Effect :=
  let bRoomId := r.RoomId ++ ":" ++ room.Id
  let bRoom : RoomCreateReq :=
    { RoomId := bRoomId, RoomMetadata := { meta with RoomTitle := room.Title } }
  let created := env.createRoom bRoom
  if created.1 = false then
    (store, [Effect.createRoomCall bRoom, Effect.logError created.2])
  else
    let roomU : BreakoutRoom := { room with Duration := r.Duration }
    match env.serializeBreakoutRoom roomU with
    | none => (store, [Effect.createRoomCall bRoom, Effect.logError "json marshal failed"])
    | some marshal =>
      if env.hsetExecOk (breakoutRoomKey ++ r.RoomId) bRoomId marshal then
        (Store.hset store (breakoutRoomKey ++ r.RoomId) bRoomId marshal,
         [Effect.createRoomCall bRoom,
          Effect.hsetEff (breakoutRoomKey ++ r.RoomId) bRoomId marshal]
           ++ notifyUsers env r.RoomId r.RequestedUserId bRoomId room.Users)
      else
        (store, [Effect.createRoomCall bRoom, Effect.logError "pipeline exec failed"])

def processRooms (env : Env) (store : Store) (meta : RoomMetadata)
    (r : CreateBreakoutRoomsReq) : List BreakoutRoom → Store × List Effect
  | [] => (store, [])
  | room :: rest =>
    let step := processOneRoom env store meta r room
    let next := processRooms env step.1 meta r rest
    (next.1, step.2 ++ next.2)

def createBreakoutRooms (env : Env) (store : Store) (r : CreateBreakoutRoomsReq) :
    Except String Unit × Store × List Effect :=
  match env.loadRoomInfo r.RoomId with
  | none => (Except.error "room load failed", store, [])
  | some mainRoom =>
    match env.parseRoomMetadata mainRoom.Metadata with
    | none => (Except.error "json unmarshal failed", store, [])
    | some meta0 =>
      let meta := deriveTemplate meta0 r
      let processed := processRooms env store meta r r.Rooms
      -- lines 114-120: the final metadata is unmarshalled afresh from the
      -- originally loaded metadata string, not taken from the mutated template
      match env.parseRoomMetadata mainRoom.Metadata with
      | none => (Except.error "json unmarshal failed", processed.1, processed.2)
      | some orig0 =>
        let origMeta := setBreakoutActive orig0
        match env.serializeRoomMetadata origMeta with
        | none => (Except.error "json marshal failed", processed.1, processed.2)
        | some marshal =>
          if env.updateRoomMetadata r.RoomId marshal then
            (Except.ok (), processed.1,
             processed.2 ++ [Effect.updateRoomMetaCall r.RoomId marshal])
          else
            (Except.error "update room metadata failed", processed.1,
             processed.2 ++ [Effect.updateRoomMetaCall r.RoomId marshal])

/-! JoinBreakoutRoom, breakout_room.go lines 140-180.  The denial message in
the source contains an apostrophe; it is reworded here. -/

def joinBreakoutRoom (env : Env) (store : Store) (r : JoinBreakoutRoomReq) :
    Except String String × List Effect :=
  match fetchBreakoutRoom env store r.RoomId r.BreakoutRoomId with
  | Except.error e => (Except.error e, [])
  | Except.ok room =>
    let canJoin := room.Users.foldl (fun acc u => if u.Id = r.UserId then true else acc) false
    if canJoin = false then (Except.error "you cannot join in this room", [])
    else
      match env.loadParticipantInfo r.RoomId r.UserId with
      | none => (Except.error "participant load failed", [])
      | some p =>
        match env.parseUserMetadata p.Metadata with
        | none => (Except.error "json unmarshal failed", [])
        | some meta =>
          let req : GenTokenReq :=
            { RoomId := r.BreakoutRoomId,
              UserInfo := { UserId := r.UserId, Name := p.Name,
                            IsAdmin := meta.IsAdmin, UserMetadata := meta } }
          match env.genToken req with
          | none => (Except.error "token generation failed", [Effect.genTokenCall req])
          | some token => (Except.ok token, [Effect.genTokenCall req])

/-! IncreaseBreakoutRoomDuration, breakout_room.go lines 197-228. -/

def increaseBreakoutRoomDuration (env : Env) (store : Store)
    (r : IncreaseBreakoutRoomDurationReq) : Except String Unit × Store × List Effect :=
  match fetchBreakoutRoom env store r.RoomId r.BreakoutRoomId with
  | Except.error e => (Except.error e, store, [])
  | Except.ok room =>
    let req : RedisRoomDurationCheckerReq :=
      { typ := "increaseDuration", room_id := r.BreakoutRoomId, duration := r.Duration }
    match env.serializeDurationReq req with
    | none => (Except.error "json marshal failed", store, [])
    | some reqMar =>
      let pubEff := Effect.publishDurationEff "plug-n-meet-room-duration-checker" req reqMar
      let roomU : BreakoutRoom := { room with Duration := r.Duration }
      match env.serializeBreakoutRoom roomU with
      | none => (Except.error "json marshal failed", store, [pubEff])
      | some marshal =>
        if env.hsetExecOk (breakoutRoomKey ++ r.RoomId) r.BreakoutRoomId marshal then
          (Except.ok (),
           Store.hset store (breakoutRoomKey ++ r.RoomId) r.BreakoutRoomId marshal,
           [pubEff, Effect.hsetEff (breakoutRoomKey ++ r.RoomId) r.BreakoutRoomId marshal])
        else
          (Except.error "pipeline exec failed", store, [pubEff])

/-! EndBreakoutRoom, breakout_room.go lines 257-269. -/

def endBreakoutRoom (env : Env) (store : Store) (r : EndBreakoutRoomReq) :
    Except String Unit × Store × List Effect :=
  match fetchBreakoutRoom env store r.RoomId r.BreakoutRoomId with
  | Except.error e => (Except.error e, store, [])
  | Except.ok _ =>
    if env.endRoom r.BreakoutRoomId then
      (Except.ok (),
       Store.hdel store (breakoutRoomKey ++ r.RoomId) r.BreakoutRoomId,
       [Effect.endRoomCall r.BreakoutRoomId,
        Effect.hdelEff (breakoutRoomKey ++ r.RoomId) r.BreakoutRoomId])
    else
      (Except.error "end room failed", store, [Effect.endRoomCall r.BreakoutRoomId])

/-! EndBreakoutRooms, breakout_room.go lines 271-285. -/

def endRoomsLoop (env : Env) : List BreakoutRoom → List Effect
  | [] => []
  | r :: rest =>
    (if env.endRoom r.Id then [Effect.endRoomCall r.Id]
     else [Effect.endRoomCall r.Id]) ++ endRoomsLoop env rest

def endBreakoutRooms (env : Env) (store : Store) (roomId : String) :
    Except String Unit × Store × List Effect :=
  match fetchBreakoutRooms env store roomId with
  | Except.error e => (Except.error e, store, [])
  | Except.ok rooms =>
    (Except.ok (), Store.del store (breakoutRoomKey ++ roomId),
     endRoomsLoop env rooms ++ [Effect.delEff (breakoutRoomKey ++ roomId)])

/-! checkRoomWithDuration, scheduler.go lines 75-89.  The source samples
time.Now once per iteration; within one tick the embedding uses a single clock
reading.  The sweep only reads the tracking map: it performs no insert or
delete on it, so the map is returned unchanged. -/

def sweepRooms (endRoomOk : String → Bool) (now : Int) :
    List (String × RoomWithDuration) → List Effect
  | [] => []
  | (i, r) :: rest =>
    let valid := r.StartedAt + r.Duration * 60
    (if valid < now then
       if endRoomOk i then [Effect.endRoomCall i]
       else [Effect.endRoomCall i, Effect.logError "end room failed"]
     else []) ++ sweepRooms endRoomOk now rest

def checkRoomWithDuration (endRoomOk : String → Bool) (now : Int)
    (roomsWithDurationMap : List (String × RoomWithDuration)) :
    List Effect × List (String × RoomWithDuration) :=
  (sweepRooms endRoomOk now roomsWithDurationMap, roomsWithDurationMap)

/-! Sample concrete inputs used by closed theorems and witnesses. -/

def sampleUser : BreakoutRoomUser := { Id := "u1", Name := "User One" }

def sampleUserTwo : BreakoutRoomUser := { Id := "u2", Name := "User Two" }

def sampleRoom : BreakoutRoom :=
  { Id := "r1", Title := "Team A", Duration := 5, Users := [sampleUser, sampleUserTwo] }

def sampleMeta : RoomMetadata :=
  { RoomTitle := "Main", WelcomeMessage := "hello", IsBreakoutRoom := false,
    Features :=
      { RoomDuration := 10, AllowRecording := true, AllowRTMP := true,
        BreakoutRoomFeatures := { IsAllow := true, IsActive := false },
        WaitingRoomFeatures := { IsActive := true } } }

def defaultEnv : Env :=
  { loadRoomInfo := fun _ => some { Metadata := "metaStr" },
    loadParticipantInfo := fun _ _ => some { Name := "User One", Metadata := "umetaStr" },
    parseRoomMetadata := fun _ => some sampleMeta,
    parseUserMetadata := fun _ => some { IsAdmin := false },
    parseBreakoutRoom := fun _ => some sampleRoom,
    serializeRoomMetadata := fun _ => some "serializedMeta",
    serializeBreakoutRoom := fun _ => some "serializedRoom",
    serializeDurationReq := fun _ => some "serializedDurationReq",
    serializeWsMsg := fun _ => some "serializedWsMsg",
    createRoom := fun _ => (true, ""),
    updateRoomMetadata := fun _ _ => true,
    endRoom := fun _ => true,
    hsetExecOk := fun _ _ _ => true,
    genToken := fun _ => some "token",
    publishOk := fun _ _ => true }

-- a store whose hash for parent room1 holds one breakout room record
def sampleStore : Store :=
  { hashes := [(breakoutRoomKey ++ "room1", [("room1:r1", "recordJson")])] }

def emptyStore : Store := { hashes := [] }

/-- Claim C1: the source of GetBreakoutRooms tests (rooms != nil) where a
successful HGetAll always returns a non-nil map, so the call returns the
error for every store, including the sample store that holds a record and
the empty store; it never returns the stored records nor an empty-but-valid
result. -/
theorem getBreakoutRooms_always_error :
    getBreakoutRooms defaultEnv sampleStore "room1"
        = Except.error "no breakout room found" ∧
    getBreakoutRooms defaultEnv emptyStore "room1"
        = Except.error "no breakout room found" ∧
    ∀ (env : Env) (store : Store) (roomId : String),
      getBreakoutRooms env store roomId = Except.error "no breakout room found" :=
  ⟨rfl, rfl, fun _ _ _ => rfl⟩

/-- Claim C6: EndBreakoutRooms first calls fetchBreakoutRooms, which fails for
every store, so the bulk end returns the error with the store untouched and
performs no directory end call and no hash deletion, even on a store holding
a record and an environment whose end-room operation always succeeds. -/
theorem endBreakoutRooms_never_ends :
    endBreakoutRooms defaultEnv sampleStore "room1"
        = (Except.error "no breakout room found", sampleStore, []) ∧
    ∀ (env : Env) (store : Store) (roomId : String),
      endBreakoutRooms env store roomId
        = (Except.error "no breakout room found", store, []) :=
  ⟨rfl, fun _ _ _ => rfl⟩

/-! Sweep helpers for claim C4. -/

def isEndRoomCall : Effect → Bool
  | Effect.endRoomCall _ => true
  | _ => false

def onlyEndRoomCalls (effs : List Effect) : List Effect :=
  effs.filter isEndRoomCall

theorem sweepRooms_endCalls (f : String → Bool) (now : Int)
    (rooms : List (String × RoomWithDuration)) :
    onlyEndRoomCalls (sweepRooms f now rooms) =
      rooms.filterMap (fun p =>
        if p.2.StartedAt + p.2.Duration * 60 < now
        then some (Effect.endRoomCall p.1) else none) := by
  induction rooms with
  | nil => rfl
  | cons p rest ih =>
    obtain ⟨i, r⟩ := p
    by_cases h : r.StartedAt + r.Duration * 60 < now
    · by_cases hf : f i
      · simp [sweepRooms, onlyEndRoomCalls, List.filter_append, h, hf, isEndRoomCall]
        simpa [onlyEndRoomCalls] using ih
      · simp [sweepRooms, onlyEndRoomCalls, List.filter_append, h, hf, isEndRoomCall]
        simpa [onlyEndRoomCalls] using ih
    · simp [sweepRooms, onlyEndRoomCalls, List.filter_append, h]
      simpa [onlyEndRoomCalls] using ih

/-- Claim C4: on a sweep tick, the end-room calls issued are exactly one call
for each tracked room whose deadline startedAt + duration * 60 is strictly in
the past (the right-hand side does not depend on the end-room success oracle,
so a failed end never stops the scan of the remaining rooms), and the tracking
map itself is returned unchanged: the sweep removes no entry. -/
theorem checkRoomWithDuration_spec (f : String → Bool) (now : Int)
    (rooms : List (String × RoomWithDuration)) :
    onlyEndRoomCalls (checkRoomWithDuration f now rooms).1 =
      rooms.filterMap (fun p =>
        if p.2.StartedAt + p.2.Duration * 60 < now
        then some (Effect.endRoomCall p.1) else none) ∧
    (checkRoomWithDuration f now rooms).2 = rooms :=
  ⟨sweepRooms_endCalls f now rooms, rfl⟩

def sampleSweepMap : List (String × RoomWithDuration) :=
  [("room1:r1", { StartedAt := 0, Duration := 1 }),
   ("room1:r2", { StartedAt := 0, Duration := 5 })]

/-- Claim C4 witness: at time 61 with a failing end-room oracle, the sweep on
the sample map ends exactly the expired room and leaves the map intact. -/
theorem checkRoomWithDuration_spec_witness :
    onlyEndRoomCalls (checkRoomWithDuration (fun _ => false) 61 sampleSweepMap).1 =
      sampleSweepMap.filterMap (fun p =>
        if p.2.StartedAt + p.2.Duration * 60 < 61
        then some (Effect.endRoomCall p.1) else none) ∧
    (checkRoomWithDuration (fun _ => false) 61 sampleSweepMap).2 = sampleSweepMap :=
  checkRoomWithDuration_spec (fun _ => false) 61 sampleSweepMap

/-- Claim C10: broadcastNotification succeeds exactly when the message
serializes, and its result is independent of the publish outcome oracle: the
publish command result is never inspected, so after serialization the call
reports success regardless of delivery. -/
theorem broadcastNotification_spec (ser : WebsocketRedisMsg → Option String)
    (po po2 : String → String → Bool)
    (roomId fromUserId toUserId broadcastMsg typeMsg mType : String) (isAdmin : Bool) :
    ((broadcastNotification ser po roomId fromUserId toUserId broadcastMsg
        typeMsg mType isAdmin).1 = Except.ok () ↔
      (ser (buildWsMsg roomId fromUserId toUserId broadcastMsg typeMsg mType
        isAdmin)).isSome = true) ∧
    (broadcastNotification ser po roomId fromUserId toUserId broadcastMsg
        typeMsg mType isAdmin).1 =
      (broadcastNotification ser po2 roomId fromUserId toUserId broadcastMsg
        typeMsg mType isAdmin).1 := by
  cases h : ser (buildWsMsg roomId fromUserId toUserId broadcastMsg typeMsg mType isAdmin) with
  | none => simp [broadcastNotification, h]
  | some v => simp [broadcastNotification, h]

/-- Claim C10 witness: with the sample serializer and two publish oracles that
disagree everywhere, a JOIN_BREAKOUT_ROOM invitation reports success and the
result is the same under both oracles. -/
theorem broadcastNotification_spec_witness :
    ((broadcastNotification defaultEnv.serializeWsMsg (fun _ _ => true) "room1" "admin"
        "u1" "room1:r1" "SYSTEM" "JOIN_BREAKOUT_ROOM" false).1 = Except.ok () ↔
      (defaultEnv.serializeWsMsg (buildWsMsg "room1" "admin" "u1" "room1:r1" "SYSTEM"
        "JOIN_BREAKOUT_ROOM" false)).isSome = true) ∧
    (broadcastNotification defaultEnv.serializeWsMsg (fun _ _ => true) "room1" "admin"
        "u1" "room1:r1" "SYSTEM" "JOIN_BREAKOUT_ROOM" false).1 =
      (broadcastNotification defaultEnv.serializeWsMsg (fun _ _ => false) "room1" "admin"
        "u1" "room1:r1" "SYSTEM" "JOIN_BREAKOUT_ROOM" false).1 :=
  broadcastNotification_spec defaultEnv.serializeWsMsg (fun _ _ => true) (fun _ _ => false)
    "room1" "admin" "u1" "room1:r1" "SYSTEM" "JOIN_BREAKOUT_ROOM" false

/-! Association-list and store lemmas. -/

theorem lookupA_setA_same {α : Type} (l : List (String × α)) (k : String) (v : α) :
    lookupA (setA l k v) k = some v := by
  induction l with
  | nil => simp [setA, lookupA]
  | cons p rest ih =>
    by_cases h : p.1 = k
    · simp [setA, lookupA, h]
    · simp [setA, lookupA, h, ih]

theorem hget_hset_same (s : Store) (key field value : String) :
    Store.hget (Store.hset s key field value) key field = some value := by
  simp [Store.hget, Store.hset, lookupA_setA_same]

/-- Claim C2: for every breakout room record that exists (and a duration-event
serializer that succeeds, as the Go JSON encoder does on this struct), the
increase-duration call first publishes an increaseDuration event on the
duration-checker channel whose payload carries the absolute new duration, and,
whenever the call succeeds, the persisted record is the serialization of the
old record with its duration field replaced by the new value. -/
theorem increaseBreakoutRoomDuration_spec (env : Env) (store : Store)
    (r : IncreaseBreakoutRoomDurationReq) (room : BreakoutRoom)
    (hroom : fetchBreakoutRoom env store r.RoomId r.BreakoutRoomId = Except.ok room)
    (hsd : ∀ ev, (env.serializeDurationReq ev).isSome = true) :
    (∃ payload rest,
        (increaseBreakoutRoomDuration env store r).2.2 =
          Effect.publishDurationEff "plug-n-meet-room-duration-checker"
            { typ := "increaseDuration", room_id := r.BreakoutRoomId,
              duration := r.Duration } payload :: rest) ∧
    ((increaseBreakoutRoomDuration env store r).1 = Except.ok () →
      Store.hget (increaseBreakoutRoomDuration env store r).2.1
          (breakoutRoomKey ++ r.RoomId) r.BreakoutRoomId
        = env.serializeBreakoutRoom { room with Duration := r.Duration }) := by
  have hev := hsd ⟨"increaseDuration", r.BreakoutRoomId, r.Duration⟩
  obtain ⟨payload, hpay⟩ := Option.isSome_iff_exists.mp hev
  cases hm : env.serializeBreakoutRoom { room with Duration := r.Duration } with
  | none =>
    constructor
    · exact ⟨payload, [], by simp [increaseBreakoutRoomDuration, hroom, hpay, hm]⟩
    · intro h
      simp [increaseBreakoutRoomDuration, hroom, hpay, hm] at h
  | some marshal =>
    by_cases hx : env.hsetExecOk (breakoutRoomKey ++ r.RoomId) r.BreakoutRoomId marshal
    · constructor
      · exact ⟨payload,
          [Effect.hsetEff (breakoutRoomKey ++ r.RoomId) r.BreakoutRoomId marshal],
          by simp [increaseBreakoutRoomDuration, hroom, hpay, hm, hx]⟩
      · intro h
        simp [increaseBreakoutRoomDuration, hroom, hpay, hm, hx, hget_hset_same]
    · constructor
      · exact ⟨payload, [], by simp [increaseBreakoutRoomDuration, hroom, hpay, hm, hx]⟩
      · intro h
        simp [increaseBreakoutRoomDuration, hroom, hpay, hm, hx] at h

def c2Req : IncreaseBreakoutRoomDurationReq :=
  { RoomId := "room1", BreakoutRoomId := "room1:r1", Duration := 45 }

/-- Claim C2 witness: on the sample store, increasing the duration of room
room1:r1 to 45 persists the old record with duration replaced by 45. -/
theorem increaseBreakoutRoomDuration_spec_witness :
    Store.hget (increaseBreakoutRoomDuration defaultEnv sampleStore c2Req).2.1
        (breakoutRoomKey ++ c2Req.RoomId) c2Req.BreakoutRoomId
      = defaultEnv.serializeBreakoutRoom { sampleRoom with Duration := 45 } :=
  (increaseBreakoutRoomDuration_spec defaultEnv sampleStore c2Req sampleRoom rfl
    (fun _ => rfl)).2 rfl

/-- Claim C7: ending one breakout room fails with the fetch error when the
record is absent, propagates a directory end-failure as an error, deletes the
record from the hash only on a successful directory end, and leaves the store
untouched whenever the call returns an error. -/
theorem endBreakoutRoom_spec (env : Env) (store : Store) (r : EndBreakoutRoomReq) :
    (∀ e, fetchBreakoutRoom env store r.RoomId r.BreakoutRoomId = Except.error e →
      endBreakoutRoom env store r = (Except.error e, store, [])) ∧
    (∀ room, fetchBreakoutRoom env store r.RoomId r.BreakoutRoomId = Except.ok room →
      env.endRoom r.BreakoutRoomId = false →
      endBreakoutRoom env store r =
        (Except.error "end room failed", store, [Effect.endRoomCall r.BreakoutRoomId])) ∧
    (∀ e, (endBreakoutRoom env store r).1 = Except.error e →
      (endBreakoutRoom env store r).2.1 = store) ∧
    ((endBreakoutRoom env store r).1 = Except.ok () →
      (endBreakoutRoom env store r).2.1 =
        Store.hdel store (breakoutRoomKey ++ r.RoomId) r.BreakoutRoomId ∧
      env.endRoom r.BreakoutRoomId = true) := by
  cases hf : fetchBreakoutRoom env store r.RoomId r.BreakoutRoomId with
  | error e =>
    refine ⟨?_, ?_, ?_, ?_⟩
    · intro e2 he2
      cases he2
      simp [endBreakoutRoom, hf]
    · intro room hr
      cases hr
    · intro e2 _
      simp [endBreakoutRoom, hf]
    · intro h
      simp [endBreakoutRoom, hf] at h
  | ok room =>
    by_cases he : env.endRoom r.BreakoutRoomId
    · refine ⟨?_, ?_, ?_, ?_⟩
      · intro e2 he2
        cases he2
      · intro room2 _ hfalse
        rw [he] at hfalse
        simp at hfalse
      · intro e2 h2
        simp [endBreakoutRoom, hf, he] at h2
      · intro _
        exact ⟨by simp [endBreakoutRoom, hf, he], he⟩
    · refine ⟨?_, ?_, ?_, ?_⟩
      · intro e2 he2
        cases he2
      · intro room2 _ _
        simp [endBreakoutRoom, hf, he]
      · intro e2 _
        simp [endBreakoutRoom, hf, he]
      · intro h
        simp [endBreakoutRoom, hf, he] at h

def c7Req : EndBreakoutRoomReq := { RoomId := "room1", BreakoutRoomId := "room1:r1" }

/-- Claim C7 witness: on the sample store with a directory whose end succeeds,
ending room1:r1 removes exactly its hash entry. -/
theorem endBreakoutRoom_spec_witness :
    (endBreakoutRoom defaultEnv sampleStore c7Req).2.1 =
      Store.hdel sampleStore (breakoutRoomKey ++ c7Req.RoomId) c7Req.BreakoutRoomId ∧
    defaultEnv.endRoom c7Req.BreakoutRoomId = true :=
  (endBreakoutRoom_spec defaultEnv sampleStore c7Req).2.2.2 rfl

theorem canJoin_foldl_false (uid : String) (l : List BreakoutRoomUser)
    (h : ∀ u ∈ l, u.Id ≠ uid) (acc : Bool) :
    l.foldl (fun acc u => if u.Id = uid then true else acc) acc = acc := by
  induction l generalizing acc with
  | nil => rfl
  | cons u rest ih =>
    rw [List.foldl_cons]
    have hu : u.Id ≠ uid := h u (by simp)
    rw [if_neg hu]
    exact ih (fun v hv => h v (by simp [hv])) acc

theorem canJoin_foldl_true (uid : String) (l : List BreakoutRoomUser) (acc : Bool)
    (h : l.foldl (fun acc u => if u.Id = uid then true else acc) acc = true) :
    acc = true ∨ ∃ u ∈ l, u.Id = uid := by
  induction l generalizing acc with
  | nil => exact Or.inl h
  | cons u rest ih =>
    rw [List.foldl_cons] at h
    rcases ih _ h with hacc | ⟨v, hv, hvid⟩
    · by_cases hu : u.Id = uid
      · exact Or.inr ⟨u, by simp, hu⟩
      · rw [if_neg hu] at hacc
        exact Or.inl hacc
    · exact Or.inr ⟨v, by simp [hv], hvid⟩

/-- Claim C5: joining a breakout room fails when the record is absent from the
hash, fails with the permission-denied message for every user id that is not
in the invited-user list of the stored record, and a token request is issued
only when the user id is present in the invited list. -/
theorem joinBreakoutRoom_access_control (env : Env) (store : Store)
    (r : JoinBreakoutRoomReq) :
    (Store.hget store (breakoutRoomKey ++ r.RoomId) r.BreakoutRoomId = none →
      (joinBreakoutRoom env store r).1 = Except.error "redis: nil") ∧
    (∀ room, fetchBreakoutRoom env store r.RoomId r.BreakoutRoomId = Except.ok room →
      (∀ u ∈ room.Users, u.Id ≠ r.UserId) →
      (joinBreakoutRoom env store r).1 = Except.error "you cannot join in this room") ∧
    (∀ req, Effect.genTokenCall req ∈ (joinBreakoutRoom env store r).2 →
      ∃ room, fetchBreakoutRoom env store r.RoomId r.BreakoutRoomId = Except.ok room ∧
        ∃ u, u ∈ room.Users ∧ u.Id = r.UserId) := by
  refine ⟨?_, ?_, ?_⟩
  · intro h
    simp [joinBreakoutRoom, fetchBreakoutRoom, h]
  · intro room hf hnone
    have hfold := canJoin_foldl_false r.UserId room.Users hnone false
    simp only [joinBreakoutRoom, hf]
    rw [hfold]
    simp
  · intro req hmem
    cases hf : fetchBreakoutRoom env store r.RoomId r.BreakoutRoomId with
    | error e => simp [joinBreakoutRoom, hf] at hmem
    | ok room =>
      refine ⟨room, rfl, ?_⟩
      by_cases hfold : room.Users.foldl
          (fun acc u => if u.Id = r.UserId then true else acc) false = false
      · simp only [joinBreakoutRoom, hf] at hmem
        rw [hfold] at hmem
        simp at hmem
      · have htrue : room.Users.foldl
            (fun acc u => if u.Id = r.UserId then true else acc) false = true := by
          revert hfold
          cases room.Users.foldl (fun acc u => if u.Id = r.UserId then true else acc) false
          · intro hfold
            exact absurd rfl hfold
          · intro _
            rfl
        rcases canJoin_foldl_true r.UserId room.Users false htrue with hacc | ⟨u, hu, hid⟩
        · cases hacc
        · exact ⟨u, hu, hid⟩

def c5Req : JoinBreakoutRoomReq :=
  { RoomId := "room1", BreakoutRoomId := "room1:r1", UserId := "u3" }

/-- Claim C5 witness: user u3 is not in the invited list of the sample record,
so joining is denied. -/
theorem joinBreakoutRoom_access_control_witness :
    (joinBreakoutRoom defaultEnv sampleStore c5Req).1 =
      Except.error "you cannot join in this room" :=
  (joinBreakoutRoom_access_control defaultEnv sampleStore c5Req).2.1 sampleRoom rfl
    (by decide)

/-! Effect classifiers and shape lemmas for CreateBreakoutRooms. -/

def isCreateRoomCall : Effect → Bool
  | Effect.createRoomCall _ => true
  | _ => false

def isUpdateMetaCall : Effect → Bool
  | Effect.updateRoomMetaCall _ _ => true
  | _ => false

theorem notifyUsers_effects (env : Env) (a b c : String) (l : List BreakoutRoomUser) :
    ∀ ef ∈ notifyUsers env a b c l,
      isCreateRoomCall ef = false ∧ isUpdateMetaCall ef = false := by
  induction l with
  | nil =>
    intro ef hef
    simp [notifyUsers] at hef
  | cons u rest ih =>
    intro ef hef
    simp only [notifyUsers] at hef
    rcases List.mem_append.mp hef with h1 | h2
    · cases hser : env.serializeWsMsg (buildWsMsg a b u.Id c "SYSTEM" "JOIN_BREAKOUT_ROOM"
        false) with
      | none =>
        simp [broadcastNotification, hser] at h1
        subst h1
        exact ⟨rfl, rfl⟩
      | some m =>
        simp [broadcastNotification, hser] at h1
        subst h1
        exact ⟨rfl, rfl⟩
    · exact ih ef h2

theorem processOneRoom_effects (env : Env) (store : Store) (meta : RoomMetadata)
    (r : CreateBreakoutRoomsReq) (room : BreakoutRoom) :
    (processOneRoom env store meta r room).2.countP isCreateRoomCall = 1 ∧
    ∀ ef ∈ (processOneRoom env store meta r room).2, isUpdateMetaCall ef = false := by
  simp only [processOneRoom]
  split
  · constructor
    · simp [List.countP_cons, isCreateRoomCall]
    · intro ef hef
      rcases List.mem_cons.mp hef with h | h
      · subst h; rfl
      · rcases List.mem_singleton.mp h with rfl; rfl
  · split
    · constructor
      · simp [List.countP_cons, isCreateRoomCall]
      · intro ef hef
        rcases List.mem_cons.mp hef with h | h
        · subst h; rfl
        · rcases List.mem_singleton.mp h with rfl; rfl
    · split
      · constructor
        · rw [List.countP_append]
          have h0 : (notifyUsers env r.RoomId r.RequestedUserId
              (r.RoomId ++ ":" ++ room.Id) room.Users).countP isCreateRoomCall = 0 := by
            rw [List.countP_eq_zero]
            intro ef hef
            simp [(notifyUsers_effects env r.RoomId r.RequestedUserId
              (r.RoomId ++ ":" ++ room.Id) room.Users ef hef).1]
          rw [h0]
          simp [List.countP_cons, isCreateRoomCall]
        · intro ef hef
          rcases List.mem_append.mp hef with h | h
          · rcases List.mem_cons.mp h with h2 | h2
            · subst h2; rfl
            · rcases List.mem_singleton.mp h2 with rfl; rfl
          · exact (notifyUsers_effects env r.RoomId r.RequestedUserId
              (r.RoomId ++ ":" ++ room.Id) room.Users ef h).2
      · constructor
        · simp [List.countP_cons, isCreateRoomCall]
        · intro ef hef
          rcases List.mem_cons.mp hef with h | h
          · subst h; rfl
          · rcases List.mem_singleton.mp h with rfl; rfl

theorem processRooms_effects (env : Env) (meta : RoomMetadata)
    (r : CreateBreakoutRoomsReq) (rooms : List BreakoutRoom) :
    ∀ store : Store,
      (processRooms env store meta r rooms).2.countP isCreateRoomCall = rooms.length ∧
      ∀ ef ∈ (processRooms env store meta r rooms).2, isUpdateMetaCall ef = false := by
  induction rooms with
  | nil =>
    intro store
    constructor
    · rfl
    · intro ef hef
      simp [processRooms] at hef
  | cons room rest ih =>
    intro store
    simp only [processRooms]
    constructor
    · rw [List.countP_append,
        (processOneRoom_effects env store meta r room).1,
        (ih (processOneRoom env store meta r room).1).1]
      simp [Nat.add_comm]
    · intro ef hef
      rcases List.mem_append.mp hef with h | h
      · exact (processOneRoom_effects env store meta r room).2 ef h
      · exact (ih (processOneRoom env store meta r room).1).2 ef h

/-- Claim C3: CreateBreakoutRooms fails exactly when the parent room cannot be
loaded, its metadata cannot be deserialized, or the final parent-metadata
update fails; given a loadable, parseable parent, success is equivalent to the
final update succeeding, and every requested room is attempted (one directory
create call per room) no matter how many per-room steps fail. -/
theorem createBreakoutRooms_error_conditions (env : Env) (store : Store)
    (r : CreateBreakoutRoomsReq) :
    (env.loadRoomInfo r.RoomId = none →
      (createBreakoutRooms env store r).1 = Except.error "room load failed") ∧
    (∀ info, env.loadRoomInfo r.RoomId = some info →
      env.parseRoomMetadata info.Metadata = none →
      (createBreakoutRooms env store r).1 = Except.error "json unmarshal failed") ∧
    (∀ info m0 s, env.loadRoomInfo r.RoomId = some info →
      env.parseRoomMetadata info.Metadata = some m0 →
      env.serializeRoomMetadata (setBreakoutActive m0) = some s →
      (((createBreakoutRooms env store r).1 = Except.ok ()) ↔
        env.updateRoomMetadata r.RoomId s = true)) ∧
    (∀ info m0, env.loadRoomInfo r.RoomId = some info →
      env.parseRoomMetadata info.Metadata = some m0 →
      (createBreakoutRooms env store r).2.2.countP isCreateRoomCall = r.Rooms.length) := by
  refine ⟨?_, ?_, ?_, ?_⟩
  · intro h
    simp [createBreakoutRooms, h]
  · intro info h1 h2
    simp [createBreakoutRooms, h1, h2]
  · intro info m0 s h1 h2 h3
    by_cases hu : env.updateRoomMetadata r.RoomId s
    · simp [createBreakoutRooms, h1, h2, h3, hu]
    · simp [createBreakoutRooms, h1, h2, h3, hu]
  · intro info m0 h1 h2
    have hc := (processRooms_effects env (deriveTemplate m0 r) r r.Rooms store).1
    cases h3 : env.serializeRoomMetadata (setBreakoutActive m0) with
    | none =>
      simp [createBreakoutRooms, h1, h2, h3, hc]
    | some s =>
      by_cases hu : env.updateRoomMetadata r.RoomId s
      · simp [createBreakoutRooms, h1, h2, h3, hu, List.countP_append, hc,
          List.countP_cons, isCreateRoomCall]
      · simp [createBreakoutRooms, h1, h2, h3, hu, List.countP_append, hc,
          List.countP_cons, isCreateRoomCall]

def c3Req : CreateBreakoutRoomsReq :=
  { RoomId := "room1", RequestedUserId := "admin", Duration := 30,
    WelcomeMsg := "welcome", Rooms := [sampleRoom] }

/-- Claim C3 witness: on the sample environment, success of the one-room
create request is equivalent to the final update succeeding, and exactly one
directory create call is made. -/
theorem createBreakoutRooms_error_conditions_witness :
    (((createBreakoutRooms defaultEnv sampleStore c3Req).1 = Except.ok ()) ↔
      defaultEnv.updateRoomMetadata c3Req.RoomId "serializedMeta" = true) ∧
    (createBreakoutRooms defaultEnv sampleStore c3Req).2.2.countP isCreateRoomCall
      = c3Req.Rooms.length :=
  ⟨(createBreakoutRooms_error_conditions defaultEnv sampleStore c3Req).2.2.1
      { Metadata := "metaStr" } sampleMeta "serializedMeta" rfl rfl rfl,
   (createBreakoutRooms_error_conditions defaultEnv sampleStore c3Req).2.2.2
      { Metadata := "metaStr" } sampleMeta rfl rfl⟩

/-- Claim C8: whenever CreateBreakoutRooms returns success, the parent
metadata update has been performed with a value whose breakout-room feature
IsActive flag is true. -/
theorem createBreakoutRooms_sets_isActive (env : Env) (store : Store)
    (r : CreateBreakoutRoomsReq)
    (h : (createBreakoutRooms env store r).1 = Except.ok ()) :
    ∃ info m0 s,
      env.loadRoomInfo r.RoomId = some info ∧
      env.parseRoomMetadata info.Metadata = some m0 ∧
      env.serializeRoomMetadata (setBreakoutActive m0) = some s ∧
      (setBreakoutActive m0).Features.BreakoutRoomFeatures.IsActive = true ∧
      env.updateRoomMetadata r.RoomId s = true ∧
      Effect.updateRoomMetaCall r.RoomId s ∈ (createBreakoutRooms env store r).2.2 := by
  cases hl : env.loadRoomInfo r.RoomId with
  | none => simp [createBreakoutRooms, hl] at h
  | some info =>
    cases hp : env.parseRoomMetadata info.Metadata with
    | none => simp [createBreakoutRooms, hl, hp] at h
    | some m0 =>
      cases hs : env.serializeRoomMetadata (setBreakoutActive m0) with
      | none => simp [createBreakoutRooms, hl, hp, hs] at h
      | some s =>
        by_cases hu : env.updateRoomMetadata r.RoomId s
        · exact ⟨info, m0, s, rfl, hp, hs, rfl, hu,
            by simp [createBreakoutRooms, hl, hp, hs, hu]⟩
        · simp [createBreakoutRooms, hl, hp, hs, hu] at h

/-- Claim C8 witness: the sample one-room create request succeeds and its
final update carries a metadata value with IsActive true. -/
theorem createBreakoutRooms_sets_isActive_witness :
    ∃ info m0 s,
      defaultEnv.loadRoomInfo c3Req.RoomId = some info ∧
      defaultEnv.parseRoomMetadata info.Metadata = some m0 ∧
      defaultEnv.serializeRoomMetadata (setBreakoutActive m0) = some s ∧
      (setBreakoutActive m0).Features.BreakoutRoomFeatures.IsActive = true ∧
      defaultEnv.updateRoomMetadata c3Req.RoomId s = true ∧
      Effect.updateRoomMetaCall c3Req.RoomId s ∈
        (createBreakoutRooms defaultEnv sampleStore c3Req).2.2 :=
  createBreakoutRooms_sets_isActive defaultEnv sampleStore c3Req rfl

/-- Claim C9: every final parent-metadata payload written by
CreateBreakoutRooms is the serialization of the freshly re-deserialized
originally-loaded metadata with only IsActive set, and that value keeps every
field the per-room template had overridden (duration, welcome message,
breakout flag, recording, RTMP, waiting room, IsAllow, title) equal to the
original parse, so the write carries none of the template overrides. -/
theorem createBreakoutRooms_fresh_reparse (env : Env) (store : Store)
    (r : CreateBreakoutRoomsReq) (info : RoomInfo) (m0 : RoomMetadata)
    (hl : env.loadRoomInfo r.RoomId = some info)
    (hp : env.parseRoomMetadata info.Metadata = some m0) :
    (∀ s, Effect.updateRoomMetaCall r.RoomId s ∈ (createBreakoutRooms env store r).2.2 →
      env.serializeRoomMetadata (setBreakoutActive m0) = some s) ∧
    (setBreakoutActive m0).Features.RoomDuration = m0.Features.RoomDuration ∧
    (setBreakoutActive m0).WelcomeMessage = m0.WelcomeMessage ∧
    (setBreakoutActive m0).IsBreakoutRoom = m0.IsBreakoutRoom ∧
    (setBreakoutActive m0).Features.AllowRecording = m0.Features.AllowRecording ∧
    (setBreakoutActive m0).Features.AllowRTMP = m0.Features.AllowRTMP ∧
    (setBreakoutActive m0).Features.BreakoutRoomFeatures.IsAllow
      = m0.Features.BreakoutRoomFeatures.IsAllow ∧
    (setBreakoutActive m0).Features.WaitingRoomFeatures.IsActive
      = m0.Features.WaitingRoomFeatures.IsActive ∧
    (setBreakoutActive m0).RoomTitle = m0.RoomTitle := by
  refine ⟨?_, rfl, rfl, rfl, rfl, rfl, rfl, rfl, rfl⟩
  intro s hmem
  have hnone := (processRooms_effects env (deriveTemplate m0 r) r r.Rooms store).2
  cases hs : env.serializeRoomMetadata (setBreakoutActive m0) with
  | none =>
    simp only [createBreakoutRooms, hl, hp, hs] at hmem
    have := hnone (Effect.updateRoomMetaCall r.RoomId s) hmem
    simp [isUpdateMetaCall] at this
  | some s0 =>
    by_cases hu : env.updateRoomMetadata r.RoomId s0
    · simp only [createBreakoutRooms, hl, hp, hs, hu, if_pos] at hmem
      rcases List.mem_append.mp hmem with h | h
      · have := hnone (Effect.updateRoomMetaCall r.RoomId s) h
        simp [isUpdateMetaCall] at this
      · rcases List.mem_singleton.mp h with heq
        cases heq
        rfl
    · simp only [createBreakoutRooms, hl, hp, hs, hu, if_neg] at hmem
      rcases List.mem_append.mp hmem with h | h
      · have := hnone (Effect.updateRoomMetaCall r.RoomId s) h
        simp [isUpdateMetaCall] at this
      · rcases List.mem_singleton.mp h with heq
        cases heq
        rfl

/-- Claim C9 witness: for the sample create request the only final update
payload is the serialization of the fresh re-parse with IsActive set, whose
welcome message and duration are still those of the original parse even
though the request overrode both. -/
theorem createBreakoutRooms_fresh_reparse_witness :
    defaultEnv.serializeRoomMetadata (setBreakoutActive sampleMeta)
      = some "serializedMeta" ∧
    (setBreakoutActive sampleMeta).Features.RoomDuration
      = sampleMeta.Features.RoomDuration ∧
    (setBreakoutActive sampleMeta).WelcomeMessage = sampleMeta.WelcomeMessage := by
  have h := createBreakoutRooms_fresh_reparse defaultEnv sampleStore c3Req
    { Metadata := "metaStr" } sampleMeta rfl rfl
  exact ⟨h.1 "serializedMeta" (by decide), h.2.1, h.2.2.1⟩

end PlugNmeet
